import Mathlib

/-!
# Verification of the `gameutils` entity/component registry

A shallow embedding of `src/include/gameutils/entity.h` (namespace
`gameutils`): the `EntityManager` class with its two tables
(`m_entities`, `m_componentTypes`), the deferred-removal list
(`m_entitiesMarkedForRemoval`) and the id cursor (`m_nextEntityId`).

C++ `std::map` / `std::unordered_map` instances are embedded as
association lists with `std::map`-faithful operations: `lookupKey`
(`find`), `insertKV` (`insert`, a no-op when the key is present),
`updateKey` (in-place mutation of a found entry's mapped value) and
`eraseKey` (`erase` of a found iterator).  Entity ids (`EntityId`,
a `uint32_t`) and type tags (`std::type_index`) are embedded as `Nat`,
with explicit mod-`2^32` wrapping where the C++ arithmetic can wrap.  C++ exceptions (`throw std::runtime_error`) are
embedded as `Except.error`: they abort the operation.
-/

set_option autoImplicit false

namespace Gameutils

/-- Lookup in an association list: `std::map::find`. -/
def lookupKey {β : Type} (k : Nat) : List (Nat × β) → Option β
  | [] => none
  | (a, b) :: rest => if a = k then some b else lookupKey k rest

/-- Embeds `std::map::insert`: inserts `(k, v)` when `k` is absent, otherwise a no-op
(the C++ call reports success through `result.second`, which the embedding
recovers as `(lookupKey k m).isNone`). -/
def insertKV {β : Type} (k : Nat) (v : β) (m : List (Nat × β)) : List (Nat × β) :=
  match lookupKey k m with
  | some _ => m
  | none => (k, v) :: m

/-- Replace the mapped value at key `k` (mutation of `iter->second` through a
found iterator); a no-op when `k` is absent. -/
def updateKey {β : Type} (k : Nat) (v : β) : List (Nat × β) → List (Nat × β)
  | [] => []
  | (a, b) :: rest => if a = k then (a, v) :: rest else (a, b) :: updateKey k v rest

/-- Embeds `std::map::erase` of a found iterator: removes the entry for `k`. -/
def eraseKey {β : Type} (k : Nat) : List (Nat × β) → List (Nat × β)
  | [] => []
  | (a, b) :: rest => if a = k then rest else (a, b) :: eraseKey k rest

/-- The keys of an association list are pairwise distinct (automatic in the
C++ maps). -/
def keysNodup {β : Type} (m : List (Nat × β)) : Prop :=
  (m.map Prod.fst).Nodup

/-- A component instance: its runtime type index (`typeid(*ptr)`, a
`std::type_index`, embedded as a `Nat` tag) and an identity distinguishing
instances of the same type.  Entity ids (`Nat`, a `uint32_t`) and type
tags are both embedded as `Nat`. -/
structure Comp where
  tag : Nat
  val : Nat
deriving DecidableEq, Repr

/-- Embeds `std::numeric_limits<EntityId>::max()`. -/
def maxEntityId : Nat := 2 ^ 32 - 1

/-- The reserved invalid id. -/
def InvalidEntity : Nat := 0

/-- Embeds `ComponentNodes`: per-entity map from component type to component. -/
abbrev ComponentNodes := List (Nat × Comp)

/-- Embeds `EntityNodes`: per-component-type map from entity id to component. -/
abbrev EntityNodes := List (Nat × Comp)

/-- The `EntityManager` state: its four data members. -/
structure EntityManager where
  m_entities : List (Nat × ComponentNodes)
  m_entitiesMarkedForRemoval : List Nat
  m_componentTypes : List (Nat × EntityNodes)
  m_nextEntityId : Nat
deriving DecidableEq, Repr

namespace EntityManager

/-- The freshly constructed manager: empty tables, cursor at the maximum. -/
def init : EntityManager :=
  { m_entities := []
    m_entitiesMarkedForRemoval := []
    m_componentTypes := []
    m_nextEntityId := maxEntityId }

/-- Embeds `entityId--` on `uint32_t` (wraps at 0). -/
def u32dec (id : Nat) : Nat :=
  (id + (2 ^ 32 - 1)) % 2 ^ 32

/-- The id-scan loop of `createEntity`: while the candidate id is live, step
to `maxEntityId` when at `1`, else decrement.  The C++ loop is unbounded; the
embedding carries fuel, and `2^32` steps of fuel are enough to visit every id
the loop can reach (`none` is returned exactly when the C++ loop would never
terminate). -/
def scanForId (ents : List (Nat × ComponentNodes)) :
    Nat → Nat → Option Nat
  | 0, _ => none
  | fuel + 1, id =>
    if (lookupKey id ents).isSome then
      scanForId ents fuel (if id = 1 then maxEntityId else u32dec id)
    else
      some id

/-- Embeds `EntityManager::createEntity`. -/
def createEntity (em : EntityManager) : EntityManager × Nat :=
  if em.m_entities.length = maxEntityId then
    (em, InvalidEntity)
  else
    match scanForId em.m_entities (2 ^ 32) em.m_nextEntityId with
    | none => (em, InvalidEntity)
    | some entityId =>
      if (lookupKey entityId em.m_entities).isSome then
        -- `insert` failed (`!result.second`); dead in fact, since the scan
        -- only stops at an id that is not in the map.
        (em, InvalidEntity)
      else
        ({ em with
            m_entities := insertKV entityId [] em.m_entities
            m_nextEntityId := if entityId = 1 then maxEntityId else u32dec entityId },
          entityId)

/-- The loop of `destroyEntity`: for each component type the entity holds,
remove the matching entity node from the component-type index; a missing
counterpart entry throws. -/
def eraseFromTypeIndex (entityId : Nat) :
    List (Nat × EntityNodes) → ComponentNodes → Except String (List (Nat × EntityNodes))
  | componentTypes, [] => .ok componentTypes
  | componentTypes, (cmType, _) :: rest =>
    match lookupKey cmType componentTypes with
    | none => .error "Could not find expected component type in EM."
    | some enNodes =>
      match lookupKey entityId enNodes with
      | none => .error "Could not find expected entity node in EM."
      | some _ =>
        eraseFromTypeIndex entityId
          (updateKey cmType (eraseKey entityId enNodes) componentTypes) rest

/-- Embeds `EntityManager::destroyEntity`. -/
def destroyEntity (em : EntityManager) (entityId : Nat) :
    Except String (EntityManager × Bool) :=
  match lookupKey entityId em.m_entities with
  | none => .ok (em, false)
  | some componentNodes => do
    let ct ← eraseFromTypeIndex entityId em.m_componentTypes componentNodes
    .ok ({ em with
            m_entities := eraseKey entityId em.m_entities
            m_componentTypes := ct },
          true)

/-- Embeds `EntityManager::destroyAllEntities`: clears both tables (and only them). -/
def destroyAllEntities (em : EntityManager) : EntityManager × Bool :=
  ({ em with m_entities := [], m_componentTypes := [] }, true)

/-- Embeds `EntityManager::attachComponent`.  The component argument is the
`shared_ptr`, `none` embedding a null pointer; a non-null component's type
index is `typeid(*pInner)`, its `tag` field. -/
def attachComponent (em : EntityManager) (entityId : Nat)
    (pComponent : Option Comp) : EntityManager × Bool :=
  match lookupKey entityId em.m_entities with
  | none => (em, false)
  | some cmNodes =>
    match pComponent with
    | none => (em, false)
    | some comp =>
      match lookupKey comp.tag cmNodes with
      | some _ => (em, false)
      | none =>
        let cmNodes' := insertKV comp.tag comp cmNodes
        match lookupKey comp.tag em.m_componentTypes with
        | none =>
          -- create a fresh EntityNodes map for this type, then insert
          ({ em with
              m_entities := updateKey entityId cmNodes' em.m_entities
              m_componentTypes :=
                insertKV comp.tag (insertKV entityId comp []) em.m_componentTypes },
            true)
        | some entityNodes =>
          ({ em with
              m_entities := updateKey entityId cmNodes' em.m_entities
              m_componentTypes :=
                updateKey comp.tag (insertKV entityId comp entityNodes)
                  em.m_componentTypes },
            true)

/-- Embeds `EntityManager::detachComponent<T>`; `cmType` is `typeid(T)`. -/
def detachComponent (em : EntityManager) (cmType : Nat) (entityId : Nat) :
    Except String (EntityManager × Bool) :=
  match lookupKey entityId em.m_entities with
  | none => .ok (em, false)
  | some cmNodes =>
    match lookupKey cmType cmNodes with
    | none => .ok (em, false)
    | some _ =>
      match lookupKey cmType em.m_componentTypes with
      | none => .error "Missing component in EM."
      | some enNodes =>
        match lookupKey entityId enNodes with
        | none => .error "Missing entity node for component in EM."
        | some _ =>
          .ok ({ em with
                  m_entities := updateKey entityId (eraseKey cmType cmNodes) em.m_entities
                  m_componentTypes :=
                    updateKey cmType (eraseKey entityId enNodes) em.m_componentTypes },
                true)

/-- Embeds `EntityManager::getComponent<T>`; `cmType` is `typeid(T)`.  Read-only. -/
def getComponent (em : EntityManager) (cmType : Nat) (entityId : Nat) :
    Option Comp :=
  match lookupKey entityId em.m_entities with
  | none => none
  | some cmNodes => lookupKey cmType cmNodes

/-- Embeds `EntityManager::getEntityNodes<T>`: returns the `EntityNodes` map for
`cmType`, creating an empty one when absent (an insert of an absent key
always succeeds, so the C++ `nullptr` branch is dead). -/
def getEntityNodes (em : EntityManager) (cmType : Nat) :
    EntityManager × EntityNodes :=
  match lookupKey cmType em.m_componentTypes with
  | none =>
    ({ em with m_componentTypes := insertKV cmType [] em.m_componentTypes }, [])
  | some enNodes => (em, enNodes)

/-- Embeds `EntityManager::markForRemoval`. -/
def markForRemoval (em : EntityManager) (entityId : Nat) : EntityManager :=
  match lookupKey entityId em.m_entities with
  | none => em
  | some _ =>
    { em with
        m_entitiesMarkedForRemoval := em.m_entitiesMarkedForRemoval ++ [entityId] }

/-- The loop of `purge` over a copy of the marked list. -/
def purgeLoop : EntityManager → List Nat → Except String EntityManager
  | em, [] => .ok em
  | em, id :: rest => do
    let (em', _) ← em.destroyEntity id
    purgeLoop em' rest

/-- Embeds `EntityManager::purge`: destroys every marked entity, in order.  (The
C++ body does not clear `m_entitiesMarkedForRemoval`.) -/
def purge (em : EntityManager) : Except String EntityManager :=
  purgeLoop em em.m_entitiesMarkedForRemoval

end EntityManager

/-- Runs `n` successive `createEntity` calls, returning the final state and the
ids in call order. -/
def createN : EntityManager → Nat → EntityManager × List Nat
  | em, 0 => (em, [])
  | em, n + 1 =>
    let p := em.createEntity
    let q := createN p.1 n
    (q.1, p.2 :: q.2)

/-! ## Association-list lemmas -/

@[simp]
theorem lookupKey_nil {β : Type} (k : Nat) : lookupKey (β := β) k [] = none := rfl

@[simp]
theorem lookupKey_cons {β : Type} (k a : Nat) (b : β) (rest : List (Nat × β)) :
    lookupKey k ((a, b) :: rest) = if a = k then some b else lookupKey k rest := rfl

@[simp]
theorem updateKey_nil {β : Type} (k : Nat) (v : β) : updateKey k v [] = [] := rfl

@[simp]
theorem updateKey_cons {β : Type} (k a : Nat) (v b : β) (rest : List (Nat × β)) :
    updateKey k v ((a, b) :: rest) =
      if a = k then (a, v) :: rest else (a, b) :: updateKey k v rest := rfl

@[simp]
theorem eraseKey_nil {β : Type} (k : Nat) : eraseKey (β := β) k [] = [] := rfl

@[simp]
theorem eraseKey_cons {β : Type} (k a : Nat) (b : β) (rest : List (Nat × β)) :
    eraseKey k ((a, b) :: rest) =
      if a = k then rest else (a, b) :: eraseKey k rest := rfl

theorem lookupKey_mem {β : Type} {k : Nat} {v : β} {m : List (Nat × β)}
    (h : lookupKey k m = some v) : (k, v) ∈ m := by
  induction m with
  | nil => simp at h
  | cons p rest ih =>
    obtain ⟨a, b⟩ := p
    by_cases hak : a = k
    · subst hak
      simp at h
      subst h
      exact List.mem_cons_self _ _
    · simp [hak] at h
      exact List.mem_cons_of_mem _ (ih h)

theorem lookupKey_isSome_iff {β : Type} {k : Nat} {m : List (Nat × β)} :
    (lookupKey k m).isSome ↔ k ∈ m.map Prod.fst := by
  induction m with
  | nil => simp
  | cons p rest ih =>
    obtain ⟨a, b⟩ := p
    by_cases hak : a = k
    · subst hak
      simp
    · simp [hak, ih, Ne.symm hak]

theorem lookupKey_eq_none_iff {β : Type} {k : Nat} {m : List (Nat × β)} :
    lookupKey k m = none ↔ k ∉ m.map Prod.fst := by
  rw [← lookupKey_isSome_iff, Option.isSome_iff_exists]
  cases lookupKey k m <;> simp

theorem lookupKey_of_mem_nodup {β : Type} {k : Nat} {v : β} {m : List (Nat × β)}
    (hnd : keysNodup m) (h : (k, v) ∈ m) : lookupKey k m = some v := by
  induction m with
  | nil => simp at h
  | cons p rest ih =>
    obtain ⟨a, b⟩ := p
    rw [keysNodup, List.map_cons, List.nodup_cons] at hnd
    rcases List.mem_cons.mp h with h1 | h2
    · injection h1 with h1a h1b
      subst h1a
      subst h1b
      simp
    · have hak : a ≠ k := by
        intro hak
        subst hak
        exact hnd.1 (List.mem_map.mpr ⟨(a, v), h2, rfl⟩)
      simp [hak]
      exact ih hnd.2 h2

theorem insertKV_of_none {β : Type} {k : Nat} {m : List (Nat × β)} (v : β)
    (h : lookupKey k m = none) : insertKV k v m = (k, v) :: m := by
  simp [insertKV, h]

theorem insertKV_of_some {β : Type} {k : Nat} {w : β} {m : List (Nat × β)} (v : β)
    (h : lookupKey k m = some w) : insertKV k v m = m := by
  simp [insertKV, h]

theorem lookupKey_insertKV_self {β : Type} {k : Nat} {m : List (Nat × β)} (v : β)
    (h : lookupKey k m = none) : lookupKey k (insertKV k v m) = some v := by
  simp [insertKV_of_none v h]

theorem lookupKey_insertKV_ne {β : Type} {k k' : Nat} (v : β) (m : List (Nat × β))
    (h : k ≠ k') : lookupKey k' (insertKV k v m) = lookupKey k' m := by
  unfold insertKV
  cases hl : lookupKey k m with
  | none => simp [h]
  | some w => rfl

theorem lookupKey_updateKey_self {β : Type} {k : Nat} {w : β} {m : List (Nat × β)} (v : β)
    (h : lookupKey k m = some w) : lookupKey k (updateKey k v m) = some v := by
  induction m with
  | nil => simp at h
  | cons p rest ih =>
    obtain ⟨a, b⟩ := p
    by_cases hak : a = k
    · simp [hak]
    · simp [hak] at h ⊢
      exact ih h

theorem lookupKey_updateKey_ne {β : Type} {k k' : Nat} (v : β) (m : List (Nat × β))
    (h : k ≠ k') : lookupKey k' (updateKey k v m) = lookupKey k' m := by
  induction m with
  | nil => simp
  | cons p rest ih =>
    obtain ⟨a, b⟩ := p
    by_cases hak : a = k
    · subst hak
      simp [h]
    · by_cases hak' : a = k'
      · simp [hak, hak', Ne.symm h]
      · simp [hak, hak', ih]

theorem lookupKey_eraseKey_self {β : Type} {k : Nat} {m : List (Nat × β)}
    (hnd : keysNodup m) : lookupKey k (eraseKey k m) = none := by
  induction m with
  | nil => simp
  | cons p rest ih =>
    obtain ⟨a, b⟩ := p
    rw [keysNodup, List.map_cons, List.nodup_cons] at hnd
    by_cases hak : a = k
    · subst hak
      rw [lookupKey_eq_none_iff]
      simpa using hnd.1
    · simp [hak]
      exact ih hnd.2

theorem lookupKey_eraseKey_ne {β : Type} {k k' : Nat} (m : List (Nat × β))
    (h : k ≠ k') : lookupKey k' (eraseKey k m) = lookupKey k' m := by
  induction m with
  | nil => simp
  | cons p rest ih =>
    obtain ⟨a, b⟩ := p
    by_cases hak : a = k
    · subst hak
      simp [h]
    · by_cases hak' : a = k'
      · simp [hak, hak', Ne.symm h]
      · simp [hak, hak', ih]

theorem keys_updateKey {β : Type} (k : Nat) (v : β) (m : List (Nat × β)) :
    (updateKey k v m).map Prod.fst = m.map Prod.fst := by
  induction m with
  | nil => simp
  | cons p rest ih =>
    obtain ⟨a, b⟩ := p
    by_cases hak : a = k <;> simp [hak, ih]

theorem keysNodup_updateKey {β : Type} {k : Nat} {v : β} {m : List (Nat × β)}
    (h : keysNodup m) : keysNodup (updateKey k v m) := by
  rw [keysNodup, keys_updateKey]
  exact h

theorem keysNodup_insertKV {β : Type} {k : Nat} {v : β} {m : List (Nat × β)}
    (h : keysNodup m) : keysNodup (insertKV k v m) := by
  unfold insertKV
  cases hl : lookupKey k m with
  | some w => exact h
  | none =>
    rw [keysNodup, List.map_cons, List.nodup_cons]
    exact ⟨lookupKey_eq_none_iff.mp hl, h⟩

theorem eraseKey_sublist {β : Type} (k : Nat) (m : List (Nat × β)) :
    (eraseKey k m).Sublist m := by
  induction m with
  | nil => simp
  | cons p rest ih =>
    obtain ⟨a, b⟩ := p
    by_cases hak : a = k
    · simp [hak]
    · simp [hak]
      exact ih

theorem keysNodup_eraseKey {β : Type} {k : Nat} {m : List (Nat × β)}
    (h : keysNodup m) : keysNodup (eraseKey k m) := by
  exact List.Nodup.sublist (List.Sublist.map Prod.fst (eraseKey_sublist k m)) h

theorem mem_updateKey {β : Type} {k : Nat} {v : β} {p : Nat × β} {m : List (Nat × β)}
    (h : p ∈ updateKey k v m) : (p = (k, v) ∧ ∃ b, (k, b) ∈ m) ∨ p ∈ m := by
  induction m with
  | nil => simp at h
  | cons q rest ih =>
    obtain ⟨a, b⟩ := q
    by_cases hak : a = k
    · subst hak
      simp only [updateKey_cons, if_pos rfl] at h
      rcases List.mem_cons.mp h with h1 | h2
      · exact Or.inl ⟨h1, b, List.mem_cons_self _ _⟩
      · exact Or.inr (List.mem_cons_of_mem _ h2)
    · simp only [updateKey_cons, if_neg hak] at h
      rcases List.mem_cons.mp h with h1 | h2
      · refine Or.inr ?_
        rw [h1]
        exact List.mem_cons_self _ _
      · rcases ih h2 with ⟨h3, b', hb'⟩ | h4
        · exact Or.inl ⟨h3, b', List.mem_cons_of_mem _ hb'⟩
        · exact Or.inr (List.mem_cons_of_mem _ h4)

theorem mem_insertKV {β : Type} {k : Nat} {v : β} {p : Nat × β} {m : List (Nat × β)}
    (h : p ∈ insertKV k v m) : p = (k, v) ∨ p ∈ m := by
  unfold insertKV at h
  cases hl : lookupKey k m with
  | some w => rw [hl] at h; right; exact h
  | none =>
    rw [hl] at h
    rcases List.mem_cons.mp h with h1 | h2
    · left; exact h1
    · right; exact h2

theorem mem_eraseKey {β : Type} {k : Nat} {p : Nat × β} {m : List (Nat × β)}
    (h : p ∈ eraseKey k m) : p ∈ m :=
  (eraseKey_sublist k m).mem h

theorem length_insertKV_of_none {β : Type} {k : Nat} {v : β} {m : List (Nat × β)}
    (h : lookupKey k m = none) : (insertKV k v m).length = m.length + 1 := by
  rw [insertKV_of_none v h]
  rfl

/-! ## Invariants and reachability -/

/-- Dual-table consistency: for every entity `e` holding a component of tag
`T`, the entity-table entry and the reverse-index entry both exist and hold
the same component instance, and neither exists without the other. -/
def consistent (em : EntityManager) : Prop :=
  (∀ e cn T c, lookupKey e em.m_entities = some cn → lookupKey T cn = some c →
    ∃ en, lookupKey T em.m_componentTypes = some en ∧ lookupKey e en = some c) ∧
  (∀ T en e c, lookupKey T em.m_componentTypes = some en → lookupKey e en = some c →
    ∃ cn, lookupKey e em.m_entities = some cn ∧ lookupKey T cn = some c)

/-- Structural well-formedness of a manager state, automatic in C++: map keys
are pairwise distinct, every entity id held in the entity table lies in
`[1, maxEntityId]` (ids are `uint32_t` and `0` is never inserted), and the
cursor lies in `[1, maxEntityId]`. -/
def WF (em : EntityManager) : Prop :=
  keysNodup em.m_entities ∧
  keysNodup em.m_componentTypes ∧
  (∀ p ∈ em.m_entities, keysNodup p.2) ∧
  (∀ q ∈ em.m_componentTypes, keysNodup q.2) ∧
  (∀ p ∈ em.m_entities, 1 ≤ p.1 ∧ p.1 ≤ maxEntityId) ∧
  1 ≤ em.m_nextEntityId ∧ em.m_nextEntityId ≤ maxEntityId

/-- The combined invariant carried through every public operation. -/
def Inv (em : EntityManager) : Prop :=
  WF em ∧ consistent em

/-- States reachable from a fresh `EntityManager` through the public
operations.  Operations that can throw contribute a successor only when they
return normally (a thrown exception aborts the call). -/
inductive Reachable : EntityManager → Prop
  | init : Reachable EntityManager.init
  | createEntity {em : EntityManager} :
      Reachable em → Reachable em.createEntity.1
  | destroyEntity {em em' : EntityManager} {id : Nat} {b : Bool} :
      Reachable em → em.destroyEntity id = .ok (em', b) → Reachable em'
  | destroyAllEntities {em : EntityManager} :
      Reachable em → Reachable em.destroyAllEntities.1
  | attachComponent {em : EntityManager} {id : Nat} {pc : Option Comp} :
      Reachable em → Reachable (em.attachComponent id pc).1
  | detachComponent {em em' : EntityManager} {T : Nat} {id : Nat} {b : Bool} :
      Reachable em → em.detachComponent T id = .ok (em', b) → Reachable em'
  | getEntityNodes {em : EntityManager} {T : Nat} :
      Reachable em → Reachable (em.getEntityNodes T).1
  | markForRemoval {em : EntityManager} {id : Nat} :
      Reachable em → Reachable (em.markForRemoval id)
  | purge {em em' : EntityManager} :
      Reachable em → em.purge = .ok em' → Reachable em'

/-- One step of the spec's downward scan: the id just past `id`, wrapping
from `1` back to the maximum (never visiting `0`). -/
def scanStep (id : Nat) : Nat :=
  if id = 1 then maxEntityId else id - 1

/-- The id visited `k` steps into the downward scan that starts at
`cursor`. -/
def visit (cursor : Nat) : Nat → Nat
  | 0 => cursor
  | k + 1 => scanStep (visit cursor k)

/-! ## Arithmetic and scan lemmas -/

theorem maxEntityId_eq : maxEntityId = 4294967295 := by norm_num [maxEntityId]

theorem maxEntityId_pos : 1 ≤ maxEntityId := by rw [maxEntityId_eq]; omega

theorem u32dec_eq {id : Nat} (h1 : 2 ≤ id) (h2 : id ≤ maxEntityId) :
    EntityManager.u32dec id = id - 1 := by
  unfold EntityManager.u32dec
  rw [maxEntityId_eq] at h2
  omega

theorem scanStep_range {id : Nat} (h1 : 1 ≤ id) (h2 : id ≤ maxEntityId) :
    1 ≤ scanStep id ∧ scanStep id ≤ maxEntityId := by
  unfold scanStep
  rw [maxEntityId_eq] at h2 ⊢
  by_cases hid : id = 1
  · simp [hid]
  · simp [hid]
    omega

theorem scanStep_eq_code {id : Nat} (h1 : 1 ≤ id) (h2 : id ≤ maxEntityId) :
    (if id = 1 then maxEntityId else EntityManager.u32dec id) = scanStep id := by
  unfold scanStep
  by_cases hid : id = 1
  · simp [hid]
  · simp [hid]
    exact u32dec_eq (by omega) h2

theorem visit_range {cursor : Nat} (h1 : 1 ≤ cursor) (h2 : cursor ≤ maxEntityId)
    (k : Nat) : 1 ≤ visit cursor k ∧ visit cursor k ≤ maxEntityId := by
  induction k with
  | zero => exact ⟨h1, h2⟩
  | succ k ih => exact scanStep_range ih.1 ih.2

theorem visit_succ_shift (cursor : Nat) (k : Nat) :
    visit cursor (k + 1) = visit (scanStep cursor) k := by
  induction k with
  | zero => rfl
  | succ k ih =>
    show scanStep (visit cursor (k + 1)) = scanStep (visit (scanStep cursor) k)
    rw [ih]

theorem visit_of_le {cursor : Nat} {k : Nat} (h1 : 1 ≤ cursor)
    (hk : k ≤ cursor - 1) : visit cursor k = cursor - k := by
  induction k with
  | zero => rfl
  | succ k ih =>
    have hk' : k ≤ cursor - 1 := by omega
    show scanStep (visit cursor k) = cursor - (k + 1)
    rw [ih hk']
    unfold scanStep
    have : ¬(cursor - k = 1) := by omega
    simp [this]
    omega

theorem visit_wrap {cursor : Nat} (h1 : 1 ≤ cursor) :
    visit cursor cursor = maxEntityId := by
  obtain ⟨c, rfl⟩ : ∃ c, cursor = c + 1 := ⟨cursor - 1, by omega⟩
  show scanStep (visit (c + 1) c) = maxEntityId
  rw [visit_of_le (by omega) (by omega)]
  have h2 : c + 1 - c = 1 := by omega
  rw [h2]
  rfl

theorem visit_add {cursor : Nat} (h1 : 1 ≤ cursor) (t : Nat) :
    visit cursor (cursor + t) = visit maxEntityId t := by
  induction t with
  | zero => exact visit_wrap h1
  | succ t ih =>
    show scanStep (visit cursor (cursor + t)) = scanStep (visit maxEntityId t)
    rw [ih]

theorem visit_covers {cursor j : Nat} (h1 : 1 ≤ cursor) (h2 : cursor ≤ maxEntityId)
    (h3 : 1 ≤ j) (h4 : j ≤ maxEntityId) :
    ∃ k, k < maxEntityId ∧ visit cursor k = j := by
  by_cases hle : j ≤ cursor
  · refine ⟨cursor - j, by omega, ?_⟩
    rw [visit_of_le h1 (by omega)]
    omega
  · refine ⟨cursor + (maxEntityId - j), by omega, ?_⟩
    rw [visit_add h1]
    rw [visit_of_le maxEntityId_pos (by omega)]
    omega

theorem scanForId_free {ents : List (Nat × ComponentNodes)} {id : Nat}
    {fuel : Nat} (h : lookupKey id ents = none) (hf : 0 < fuel) :
    EntityManager.scanForId ents fuel id = some id := by
  cases fuel with
  | zero => omega
  | succ f =>
    unfold EntityManager.scanForId
    simp [h]

theorem scanForId_visit {ents : List (Nat × ComponentNodes)} (d : Nat) :
    ∀ (cursor : Nat), 1 ≤ cursor → cursor ≤ maxEntityId →
      (∀ k, k < d → (lookupKey (visit cursor k) ents).isSome) →
      lookupKey (visit cursor d) ents = none →
      ∀ fuel, d < fuel →
        EntityManager.scanForId ents fuel cursor = some (visit cursor d) := by
  induction d with
  | zero =>
    intro cursor h1 h2 hlive hfree fuel hf
    exact scanForId_free hfree hf
  | succ d ih =>
    intro cursor h1 h2 hlive hfree fuel hf
    cases fuel with
    | zero => omega
    | succ f =>
      unfold EntityManager.scanForId
      have h0 : (lookupKey (visit cursor 0) ents).isSome := hlive 0 (by omega)
      rw [show visit cursor 0 = cursor from rfl] at h0
      simp only [h0, if_true]
      rw [scanStep_eq_code h1 h2]
      obtain ⟨hs1, hs2⟩ := scanStep_range h1 h2
      have hlive' : ∀ k, k < d → (lookupKey (visit (scanStep cursor) k) ents).isSome := by
        intro k hk
        rw [← visit_succ_shift]
        exact hlive (k + 1) (by omega)
      have hfree' : lookupKey (visit (scanStep cursor) d) ents = none := by
        rw [← visit_succ_shift]
        exact hfree
      rw [ih (scanStep cursor) hs1 hs2 hlive' hfree' f (by omega)]
      rw [visit_succ_shift]

theorem scanForId_lookup_none {ents : List (Nat × ComponentNodes)} :
    ∀ {fuel : Nat} {cursor id : Nat},
      EntityManager.scanForId ents fuel cursor = some id →
      lookupKey id ents = none := by
  intro fuel
  induction fuel with
  | zero => intro cursor id h; simp [EntityManager.scanForId] at h
  | succ f ih =>
    intro cursor id h
    unfold EntityManager.scanForId at h
    by_cases hc : (lookupKey cursor ents).isSome
    · simp only [hc, if_true] at h
      exact ih h
    · simp only [hc, if_false] at h
      cases h
      cases hl : lookupKey cursor ents with
      | none => rfl
      | some w => rw [hl] at hc; simp at hc

theorem scanForId_range {ents : List (Nat × ComponentNodes)} :
    ∀ {fuel : Nat} {cursor id : Nat}, 1 ≤ cursor → cursor ≤ maxEntityId →
      EntityManager.scanForId ents fuel cursor = some id →
      1 ≤ id ∧ id ≤ maxEntityId := by
  intro fuel
  induction fuel with
  | zero => intro cursor id _ _ h; simp [EntityManager.scanForId] at h
  | succ f ih =>
    intro cursor id h1 h2 h
    unfold EntityManager.scanForId at h
    by_cases hc : (lookupKey cursor ents).isSome
    · simp only [hc, if_true] at h
      rw [scanStep_eq_code h1 h2] at h
      obtain ⟨hs1, hs2⟩ := scanStep_range h1 h2
      exact ih hs1 hs2 h
    · simp only [hc, if_false] at h
      cases h
      exact ⟨h1, h2⟩

/-! ## Invariant preservation -/

theorem Inv_init : Inv EntityManager.init := by
  refine ⟨⟨?_, ?_, ?_, ?_, ?_, maxEntityId_pos, le_refl _⟩, ?_, ?_⟩ <;>
    simp [EntityManager.init, keysNodup]

theorem Inv_of_fields {em em' : EntityManager}
    (he : em'.m_entities = em.m_entities)
    (hc : em'.m_componentTypes = em.m_componentTypes)
    (hn : em'.m_nextEntityId = em.m_nextEntityId)
    (h : Inv em) : Inv em' := by
  unfold Inv WF consistent at h ⊢
  rw [he, hc, hn]
  exact h

theorem Inv_markForRemoval {em : EntityManager} (h : Inv em) (id : Nat) :
    Inv (em.markForRemoval id) := by
  unfold EntityManager.markForRemoval
  cases lookupKey id em.m_entities with
  | none => exact h
  | some cn => exact Inv_of_fields rfl rfl rfl h

theorem Inv_destroyAllEntities {em : EntityManager} (h : Inv em) :
    Inv em.destroyAllEntities.1 := by
  obtain ⟨⟨_, _, _, _, _, h6, h7⟩, _, _⟩ := h
  refine ⟨⟨?_, ?_, ?_, ?_, ?_, h6, h7⟩, ?_, ?_⟩ <;>
    simp [EntityManager.destroyAllEntities, keysNodup]

theorem Inv_getEntityNodes {em : EntityManager} (h : Inv em) (T : Nat) :
    Inv (em.getEntityNodes T).1 := by
  obtain ⟨⟨w1, w2, w3, w4, w5, w6, w7⟩, c1, c2⟩ := h
  unfold EntityManager.getEntityNodes
  cases hl : lookupKey T em.m_componentTypes with
  | some en => exact ⟨⟨w1, w2, w3, w4, w5, w6, w7⟩, c1, c2⟩
  | none =>
    refine ⟨⟨w1, keysNodup_insertKV w2, w3, ?_, w5, w6, w7⟩, ?_, ?_⟩
    · intro q hq
      rcases mem_insertKV hq with h1 | h2
      · rw [h1]
        simp [keysNodup]
      · exact w4 q h2
    · intro e cn T' c hle hlt
      obtain ⟨en, hen, hee⟩ := c1 e cn T' c hle hlt
      by_cases hTT : T = T'
      · subst hTT
        rw [hl] at hen
        cases hen
      · refine ⟨en, ?_, hee⟩
        rw [lookupKey_insertKV_ne _ _ hTT]
        exact hen
    · intro T' en e c hlt hle
      by_cases hTT : T = T'
      · subst hTT
        rw [lookupKey_insertKV_self _ hl] at hlt
        cases hlt
        simp at hle
      · rw [lookupKey_insertKV_ne _ _ hTT] at hlt
        exact c2 T' en e c hlt hle

theorem Inv_createEntity {em : EntityManager} (h : Inv em) :
    Inv em.createEntity.1 := by
  obtain ⟨⟨w1, w2, w3, w4, w5, w6, w7⟩, c1, c2⟩ := h
  unfold EntityManager.createEntity
  split
  · exact ⟨⟨w1, w2, w3, w4, w5, w6, w7⟩, c1, c2⟩
  · cases hscan : EntityManager.scanForId em.m_entities (2 ^ 32) em.m_nextEntityId with
    | none => exact ⟨⟨w1, w2, w3, w4, w5, w6, w7⟩, c1, c2⟩
    | some id =>
      have hfree : lookupKey id em.m_entities = none := scanForId_lookup_none hscan
      obtain ⟨hr1, hr2⟩ := scanForId_range w6 w7 hscan
      simp only [hfree, Option.isSome_none, Bool.false_eq_true, if_false]
      refine ⟨⟨keysNodup_insertKV w1, w2, ?_, w4, ?_, ?_, ?_⟩, ?_, ?_⟩
      · intro p hp
        rcases mem_insertKV hp with h1 | h2
        · rw [h1]
          simp [keysNodup]
        · exact w3 p h2
      · intro p hp
        rcases mem_insertKV hp with h1 | h2
        · rw [h1]
          exact ⟨hr1, hr2⟩
        · exact w5 p h2
      · show 1 ≤ (if id = 1 then maxEntityId else EntityManager.u32dec id)
        rw [scanStep_eq_code hr1 hr2]
        exact (scanStep_range hr1 hr2).1
      · show (if id = 1 then maxEntityId else EntityManager.u32dec id) ≤ maxEntityId
        rw [scanStep_eq_code hr1 hr2]
        exact (scanStep_range hr1 hr2).2
      · intro e cn T c hle hlt
        by_cases hei : e = id
        · subst hei
          rw [lookupKey_insertKV_self _ hfree] at hle
          cases hle
          simp at hlt
        · rw [lookupKey_insertKV_ne _ _ (fun he => hei he.symm)] at hle
          exact c1 e cn T c hle hlt
      · intro T en e c hlt hle
        obtain ⟨cn, hcn, hct⟩ := c2 T en e c hlt hle
        by_cases hei : e = id
        · subst hei
          rw [hfree] at hcn
          cases hcn
        · refine ⟨cn, ?_, hct⟩
          rw [lookupKey_insertKV_ne _ _ (fun he => hei he.symm)]
          exact hcn


theorem attach_false_frame {em : EntityManager} {id : Nat} {pc : Option Comp}
    (h : (em.attachComponent id pc).2 = false) :
    (em.attachComponent id pc).1 = em := by
  cases hl : lookupKey id em.m_entities with
  | none => simp [EntityManager.attachComponent, hl]
  | some cn =>
    cases pc with
    | none => simp [EntityManager.attachComponent, hl]
    | some c =>
      cases hl2 : lookupKey c.tag cn with
      | some c' => simp [EntityManager.attachComponent, hl, hl2]
      | none =>
        exfalso
        cases hl3 : lookupKey c.tag em.m_componentTypes with
        | none => simp [EntityManager.attachComponent, hl, hl2, hl3] at h
        | some en => simp [EntityManager.attachComponent, hl, hl2, hl3] at h

theorem attach_true_iff (em : EntityManager) (id : Nat) (pc : Option Comp) :
    (em.attachComponent id pc).2 = true ↔
      ∃ cn c, lookupKey id em.m_entities = some cn ∧ pc = some c ∧
        lookupKey c.tag cn = none := by
  cases hl : lookupKey id em.m_entities with
  | none => simp [EntityManager.attachComponent, hl]
  | some cn =>
    cases pc with
    | none => simp [EntityManager.attachComponent, hl]
    | some c =>
      cases hl2 : lookupKey c.tag cn with
      | some c' => simp [EntityManager.attachComponent, hl, hl2]
      | none =>
        cases hl3 : lookupKey c.tag em.m_componentTypes with
        | none => simp [EntityManager.attachComponent, hl, hl2, hl3]
        | some en => simp [EntityManager.attachComponent, hl, hl2, hl3]

/-- Effects of a successful `attachComponent` on a consistent, well-formed
state: both tables gain the new component, everything else is untouched. -/
theorem attach_true_spec {em : EntityManager} (hInv : Inv em) {id : Nat} {c : Comp}
    {cn : ComponentNodes}
    (hcn : lookupKey id em.m_entities = some cn) (hnone : lookupKey c.tag cn = none) :
    (em.attachComponent id (some c)).2 = true ∧
    lookupKey id (em.attachComponent id (some c)).1.m_entities =
      some (insertKV c.tag c cn) ∧
    (∀ e, e ≠ id → lookupKey e (em.attachComponent id (some c)).1.m_entities =
      lookupKey e em.m_entities) ∧
    (∃ en, lookupKey c.tag (em.attachComponent id (some c)).1.m_componentTypes = some en ∧
      lookupKey id en = some c) ∧
    (∀ T, T ≠ c.tag → lookupKey T (em.attachComponent id (some c)).1.m_componentTypes =
      lookupKey T em.m_componentTypes) ∧
    (em.attachComponent id (some c)).1.m_entitiesMarkedForRemoval =
      em.m_entitiesMarkedForRemoval ∧
    (em.attachComponent id (some c)).1.m_nextEntityId = em.m_nextEntityId := by
  obtain ⟨⟨w1, w2, w3, w4, w5, w6, w7⟩, c1, c2⟩ := hInv
  cases hct : lookupKey c.tag em.m_componentTypes with
  | none =>
    simp only [EntityManager.attachComponent, hcn, hnone, hct]
    refine ⟨trivial, lookupKey_updateKey_self _ hcn, ?_, ?_, ?_, trivial, trivial⟩
    · intro e he
      exact lookupKey_updateKey_ne _ _ (fun h => he h.symm)
    · refine ⟨insertKV id c [], lookupKey_insertKV_self _ hct, ?_⟩
      simp [insertKV]
    · intro T hT
      exact lookupKey_insertKV_ne _ _ (fun h => hT h.symm)
  | some en =>
    have hiden : lookupKey id en = none := by
      cases hl : lookupKey id en with
      | none => rfl
      | some c' =>
        obtain ⟨cn', hcn', hct'⟩ := c2 c.tag en id c' hct hl
        rw [hcn] at hcn'
        cases hcn'
        rw [hnone] at hct'
        cases hct'
    simp only [EntityManager.attachComponent, hcn, hnone, hct]
    refine ⟨trivial, lookupKey_updateKey_self _ hcn, ?_, ?_, ?_, trivial, trivial⟩
    · intro e he
      exact lookupKey_updateKey_ne _ _ (fun h => he h.symm)
    · refine ⟨insertKV id c en, lookupKey_updateKey_self _ hct, ?_⟩
      exact lookupKey_insertKV_self _ hiden
    · intro T hT
      exact lookupKey_updateKey_ne _ _ (fun h => hT h.symm)

/-- Unfolding of `Inv` at an explicit state, for rewriting goals into
projection-free form. -/
theorem Inv_mk_iff (ents : List (Nat × ComponentNodes)) (marked : List Nat)
    (ct : List (Nat × EntityNodes)) (cur : Nat) :
    Inv ⟨ents, marked, ct, cur⟩ ↔
      (keysNodup ents ∧ keysNodup ct ∧ (∀ p ∈ ents, keysNodup p.2) ∧
        (∀ q ∈ ct, keysNodup q.2) ∧ (∀ p ∈ ents, 1 ≤ p.1 ∧ p.1 ≤ maxEntityId) ∧
        1 ≤ cur ∧ cur ≤ maxEntityId) ∧
      ((∀ e cn T c, lookupKey e ents = some cn → lookupKey T cn = some c →
          ∃ en, lookupKey T ct = some en ∧ lookupKey e en = some c) ∧
        (∀ T en e c, lookupKey T ct = some en → lookupKey e en = some c →
          ∃ cn, lookupKey e ents = some cn ∧ lookupKey T cn = some c)) :=
  Iff.rfl

/-- Preservation of the invariant by `attachComponent`. -/
theorem Inv_attachComponent {em : EntityManager} (hInv : Inv em) (id : Nat)
    (pc : Option Comp) : Inv (em.attachComponent id pc).1 := by
  obtain ⟨⟨w1, w2, w3, w4, w5, w6, w7⟩, c1, c2⟩ := hInv
  cases hcn : lookupKey id em.m_entities with
  | none =>
    simp only [EntityManager.attachComponent, hcn]
    exact ⟨⟨w1, w2, w3, w4, w5, w6, w7⟩, c1, c2⟩
  | some cn =>
    cases pc with
    | none =>
      simp only [EntityManager.attachComponent, hcn]
      exact ⟨⟨w1, w2, w3, w4, w5, w6, w7⟩, c1, c2⟩
    | some c =>
      cases hnone : lookupKey c.tag cn with
      | some c' =>
        simp only [EntityManager.attachComponent, hcn, hnone]
        exact ⟨⟨w1, w2, w3, w4, w5, w6, w7⟩, c1, c2⟩
      | none =>
        have hcnnd : keysNodup cn := w3 _ (lookupKey_mem hcn)
        cases hct : lookupKey c.tag em.m_componentTypes with
        | none =>
          simp only [EntityManager.attachComponent, hcn, hnone, hct]
          rw [Inv_mk_iff]
          refine ⟨⟨keysNodup_updateKey w1, keysNodup_insertKV w2, ?_, ?_, ?_, w6, w7⟩,
            ?_, ?_⟩
          · intro p hp
            rcases mem_updateKey hp with ⟨h1, _⟩ | h2
            · rw [h1]
              exact keysNodup_insertKV hcnnd
            · exact w3 p h2
          · intro q hq
            rcases mem_insertKV hq with h1 | h2
            · rw [h1]
              simp [insertKV, keysNodup]
            · exact w4 q h2
          · intro p hp
            rcases mem_updateKey hp with ⟨h1, b, hb⟩ | h2
            · rw [h1]
              exact w5 (id, b) hb
            · exact w5 p h2
          · -- entity table → index
            intro e cn0 T c0 hle hlt
            by_cases hei : e = id
            · subst hei
              rw [lookupKey_updateKey_self _ hcn] at hle
              cases hle
              by_cases hTt : T = c.tag
              · subst hTt
                rw [lookupKey_insertKV_self _ hnone] at hlt
                cases hlt
                refine ⟨insertKV e c [], lookupKey_insertKV_self _ hct, ?_⟩
                simp [insertKV]
              · rw [lookupKey_insertKV_ne _ _ (fun h => hTt h.symm)] at hlt
                obtain ⟨en, hen, hee⟩ := c1 e cn T c0 hcn hlt
                refine ⟨en, ?_, hee⟩
                rw [lookupKey_insertKV_ne _ _ (fun h => hTt h.symm)]
                exact hen
            · rw [lookupKey_updateKey_ne _ _ (fun h => hei h.symm)] at hle
              obtain ⟨en, hen, hee⟩ := c1 e cn0 T c0 hle hlt
              by_cases hTt : c.tag = T
              · subst hTt
                rw [hct] at hen
                cases hen
              · refine ⟨en, ?_, hee⟩
                rw [lookupKey_insertKV_ne _ _ hTt]
                exact hen
          · -- index → entity table
            intro T en e c0 hlt hle
            by_cases hTt : c.tag = T
            · subst hTt
              rw [lookupKey_insertKV_self _ hct] at hlt
              cases hlt
              rw [insertKV_of_none c (by simp)] at hle
              simp only [lookupKey_cons, lookupKey_nil] at hle
              by_cases hei : id = e
              · rw [if_pos hei] at hle
                cases hle
                subst hei
                refine ⟨insertKV c.tag c cn, lookupKey_updateKey_self _ hcn, ?_⟩
                exact lookupKey_insertKV_self _ hnone
              · rw [if_neg hei] at hle
                cases hle
            · rw [lookupKey_insertKV_ne _ _ hTt] at hlt
              obtain ⟨cn0, hcn0, hct0⟩ := c2 T en e c0 hlt hle
              by_cases hei : e = id
              · subst hei
                rw [hcn] at hcn0
                cases hcn0
                refine ⟨insertKV c.tag c cn, lookupKey_updateKey_self _ hcn, ?_⟩
                rw [lookupKey_insertKV_ne _ _ hTt]
                exact hct0
              · refine ⟨cn0, ?_, hct0⟩
                rw [lookupKey_updateKey_ne _ _ (fun h => hei h.symm)]
                exact hcn0
        | some en =>
          have hennd : keysNodup en := w4 _ (lookupKey_mem hct)
          have hiden : lookupKey id en = none := by
            cases hl : lookupKey id en with
            | none => rfl
            | some c' =>
              obtain ⟨cn', hcn', hct'⟩ := c2 c.tag en id c' hct hl
              rw [hcn] at hcn'
              cases hcn'
              rw [hnone] at hct'
              cases hct'
          simp only [EntityManager.attachComponent, hcn, hnone, hct]
          rw [Inv_mk_iff]
          refine ⟨⟨keysNodup_updateKey w1, keysNodup_updateKey w2, ?_, ?_, ?_, w6, w7⟩,
            ?_, ?_⟩
          · intro p hp
            rcases mem_updateKey hp with ⟨h1, _⟩ | h2
            · rw [h1]
              exact keysNodup_insertKV hcnnd
            · exact w3 p h2
          · intro q hq
            rcases mem_updateKey hq with ⟨h1, _⟩ | h2
            · rw [h1]
              exact keysNodup_insertKV hennd
            · exact w4 q h2
          · intro p hp
            rcases mem_updateKey hp with ⟨h1, b, hb⟩ | h2
            · rw [h1]
              exact w5 (id, b) hb
            · exact w5 p h2
          · -- entity table → index
            intro e cn0 T c0 hle hlt
            by_cases hei : e = id
            · subst hei
              rw [lookupKey_updateKey_self _ hcn] at hle
              cases hle
              by_cases hTt : T = c.tag
              · subst hTt
                rw [lookupKey_insertKV_self _ hnone] at hlt
                cases hlt
                refine ⟨insertKV e c en, lookupKey_updateKey_self _ hct, ?_⟩
                exact lookupKey_insertKV_self _ hiden
              · rw [lookupKey_insertKV_ne _ _ (fun h => hTt h.symm)] at hlt
                obtain ⟨en0, hen0, hee0⟩ := c1 e cn T c0 hcn hlt
                refine ⟨en0, ?_, hee0⟩
                rw [lookupKey_updateKey_ne _ _ (fun h => hTt h.symm)]
                exact hen0
            · rw [lookupKey_updateKey_ne _ _ (fun h => hei h.symm)] at hle
              obtain ⟨en0, hen0, hee0⟩ := c1 e cn0 T c0 hle hlt
              by_cases hTt : c.tag = T
              · subst hTt
                rw [hct] at hen0
                cases hen0
                refine ⟨insertKV id c en, lookupKey_updateKey_self _ hct, ?_⟩
                rw [lookupKey_insertKV_ne _ _ (fun h => hei h.symm)]
                exact hee0
              · refine ⟨en0, ?_, hee0⟩
                rw [lookupKey_updateKey_ne _ _ hTt]
                exact hen0
          · -- index → entity table
            intro T en0 e c0 hlt hle
            by_cases hTt : c.tag = T
            · subst hTt
              rw [lookupKey_updateKey_self _ hct] at hlt
              cases hlt
              by_cases hei : e = id
              · subst hei
                rw [lookupKey_insertKV_self _ hiden] at hle
                cases hle
                refine ⟨insertKV c.tag c cn, lookupKey_updateKey_self _ hcn, ?_⟩
                exact lookupKey_insertKV_self _ hnone
              · rw [lookupKey_insertKV_ne _ _ (fun h => hei h.symm)] at hle
                obtain ⟨cn0, hcn0, hct0⟩ := c2 c.tag en e c0 hct hle
                refine ⟨cn0, ?_, hct0⟩
                rw [lookupKey_updateKey_ne _ _ (fun h => hei h.symm)]
                exact hcn0
            · rw [lookupKey_updateKey_ne _ _ hTt] at hlt
              obtain ⟨cn0, hcn0, hct0⟩ := c2 T en0 e c0 hlt hle
              by_cases hei : e = id
              · subst hei
                rw [hcn] at hcn0
                cases hcn0
                refine ⟨insertKV c.tag c cn, lookupKey_updateKey_self _ hcn, ?_⟩
                rw [lookupKey_insertKV_ne _ _ hTt]
                exact hct0
              · refine ⟨cn0, ?_, hct0⟩
                rw [lookupKey_updateKey_ne _ _ (fun h => hei h.symm)]
                exact hcn0

/-- Full characterisation of `detachComponent` on a consistent, well-formed
state: it never throws, returns `true` exactly when the entity currently
holds a component of the requested type, removes the entry from both tables
on success, and changes nothing on failure. -/
theorem detachComponent_spec {em : EntityManager} (hInv : Inv em) (T id : Nat) :
    ∃ em', em.detachComponent T id = .ok (em', (em.getComponent T id).isSome) ∧
      Inv em' ∧
      em'.m_entitiesMarkedForRemoval = em.m_entitiesMarkedForRemoval ∧
      em'.m_nextEntityId = em.m_nextEntityId ∧
      em'.getComponent T id = none ∧
      (∀ en', lookupKey T em'.m_componentTypes = some en' → lookupKey id en' = none) ∧
      ((em.getComponent T id).isSome = false → em' = em) ∧
      ((em.getComponent T id).isSome = true →
        (∃ cn', lookupKey id em'.m_entities = some cn' ∧ lookupKey T cn' = none) ∧
        (∃ en', lookupKey T em'.m_componentTypes = some en' ∧ lookupKey id en' = none)) := by
  obtain ⟨⟨w1, w2, w3, w4, w5, w6, w7⟩, c1, c2⟩ := hInv
  cases hid : lookupKey id em.m_entities with
  | none =>
    refine ⟨em, ?_, ⟨⟨w1, w2, w3, w4, w5, w6, w7⟩, c1, c2⟩, rfl, rfl, ?_, ?_, fun _ => rfl, ?_⟩
    · simp [EntityManager.detachComponent, EntityManager.getComponent, hid]
    · simp [EntityManager.getComponent, hid]
    · intro en' hen'
      cases hl : lookupKey id en' with
      | none => rfl
      | some c0 =>
        obtain ⟨cn0, hcn0, _⟩ := c2 T en' id c0 hen' hl
        rw [hid] at hcn0
        cases hcn0
    · intro hco
      rw [show (em.getComponent T id).isSome = false by
        simp [EntityManager.getComponent, hid]] at hco
      cases hco
  | some cn =>
    have hcnnd : keysNodup cn := w3 _ (lookupKey_mem hid)
    cases hT : lookupKey T cn with
    | none =>
      refine ⟨em, ?_, ⟨⟨w1, w2, w3, w4, w5, w6, w7⟩, c1, c2⟩, rfl, rfl, ?_, ?_, fun _ => rfl, ?_⟩
      · simp [EntityManager.detachComponent, EntityManager.getComponent, hid, hT]
      · simp [EntityManager.getComponent, hid, hT]
      · intro en' hen'
        cases hl : lookupKey id en' with
        | none => rfl
        | some c0 =>
          obtain ⟨cn0, hcn0, hct0⟩ := c2 T en' id c0 hen' hl
          rw [hid] at hcn0
          cases hcn0
          rw [hT] at hct0
          cases hct0
      · intro hco
        rw [show (em.getComponent T id).isSome = false by
          simp [EntityManager.getComponent, hid, hT]] at hco
        cases hco
    | some c0 =>
      obtain ⟨en, hen, hide⟩ := c1 id cn T c0 hid hT
      have hennd : keysNodup en := w4 _ (lookupKey_mem hen)
      have hgc : (em.getComponent T id).isSome = true := by
        simp [EntityManager.getComponent, hid, hT]
      refine ⟨{ em with
          m_entities := updateKey id (eraseKey T cn) em.m_entities
          m_componentTypes := updateKey T (eraseKey id en) em.m_componentTypes },
        ?_, ?_, rfl, rfl, ?_, ?_, ?_, ?_⟩
      · rw [hgc]
        simp only [EntityManager.detachComponent, hid, hT, hen, hide]
      · rw [Inv_mk_iff]
        refine ⟨⟨keysNodup_updateKey w1, keysNodup_updateKey w2, ?_, ?_, ?_, w6, w7⟩,
          ?_, ?_⟩
        · intro p hp
          rcases mem_updateKey hp with ⟨h1, _⟩ | h2
          · rw [h1]
            exact keysNodup_eraseKey hcnnd
          · exact w3 p h2
        · intro q hq
          rcases mem_updateKey hq with ⟨h1, _⟩ | h2
          · rw [h1]
            exact keysNodup_eraseKey hennd
          · exact w4 q h2
        · intro p hp
          rcases mem_updateKey hp with ⟨h1, b, hb⟩ | h2
          · rw [h1]
            exact w5 (id, b) hb
          · exact w5 p h2
        · -- entity table → index
          intro e cn0 T0 c0' hle hlt
          by_cases hei : e = id
          · subst hei
            rw [lookupKey_updateKey_self _ hid] at hle
            cases hle
            by_cases hTT : T0 = T
            · subst hTT
              rw [lookupKey_eraseKey_self hcnnd] at hlt
              cases hlt
            · rw [lookupKey_eraseKey_ne _ (fun h => hTT h.symm)] at hlt
              obtain ⟨en0, hen0, hee0⟩ := c1 e cn T0 c0' hid hlt
              refine ⟨en0, ?_, hee0⟩
              rw [lookupKey_updateKey_ne _ _ (fun h => hTT (h.symm))]
              exact hen0
          · rw [lookupKey_updateKey_ne _ _ (fun h => hei h.symm)] at hle
            obtain ⟨en0, hen0, hee0⟩ := c1 e cn0 T0 c0' hle hlt
            by_cases hTT : T = T0
            · subst hTT
              rw [hen] at hen0
              cases hen0
              refine ⟨eraseKey id en, lookupKey_updateKey_self _ hen, ?_⟩
              rw [lookupKey_eraseKey_ne _ (fun h => hei h.symm)]
              exact hee0
            · refine ⟨en0, ?_, hee0⟩
              rw [lookupKey_updateKey_ne _ _ hTT]
              exact hen0
        · -- index → entity table
          intro T0 en0 e c0' hlt hle
          by_cases hTT : T = T0
          · subst hTT
            rw [lookupKey_updateKey_self _ hen] at hlt
            cases hlt
            by_cases hei : e = id
            · subst hei
              rw [lookupKey_eraseKey_self hennd] at hle
              cases hle
            · rw [lookupKey_eraseKey_ne _ (fun h => hei h.symm)] at hle
              obtain ⟨cn0, hcn0, hct0⟩ := c2 T en e c0' hen hle
              refine ⟨cn0, ?_, hct0⟩
              rw [lookupKey_updateKey_ne _ _ (fun h => hei h.symm)]
              exact hcn0
          · rw [lookupKey_updateKey_ne _ _ hTT] at hlt
            obtain ⟨cn0, hcn0, hct0⟩ := c2 T0 en0 e c0' hlt hle
            by_cases hei : e = id
            · subst hei
              rw [hid] at hcn0
              cases hcn0
              refine ⟨eraseKey T cn, lookupKey_updateKey_self _ hid, ?_⟩
              rw [lookupKey_eraseKey_ne _ hTT]
              exact hct0
            · refine ⟨cn0, ?_, hct0⟩
              rw [lookupKey_updateKey_ne _ _ (fun h => hei h.symm)]
              exact hcn0
      · -- getComponent after success is absent
        show (match lookupKey id (updateKey id (eraseKey T cn) em.m_entities) with
          | none => none
          | some cmNodes => lookupKey T cmNodes) = none
        rw [lookupKey_updateKey_self _ hid]
        exact lookupKey_eraseKey_self hcnnd
      · intro en' hen'
        rw [lookupKey_updateKey_self _ hen] at hen'
        cases hen'
        exact lookupKey_eraseKey_self hennd
      · intro hco
        rw [hgc] at hco
        cases hco
      · intro _
        constructor
        · refine ⟨eraseKey T cn, lookupKey_updateKey_self _ hid, ?_⟩
          exact lookupKey_eraseKey_self hcnnd
        · refine ⟨eraseKey id en, lookupKey_updateKey_self _ hen, ?_⟩
          exact lookupKey_eraseKey_self hennd

/-- The `destroyEntity` loop over the entity's component types: when every
held type has a counterpart entry containing the entity, the loop returns
normally and removes the entity from exactly those per-type maps. -/
theorem eraseFromTypeIndex_spec {e : Nat} :
    ∀ {cnodes : ComponentNodes} {ct : List (Nat × EntityNodes)},
      keysNodup cnodes →
      (∀ p ∈ cnodes, ∃ en, lookupKey p.1 ct = some en ∧ (lookupKey e en).isSome) →
      ∃ ct', EntityManager.eraseFromTypeIndex e ct cnodes = .ok ct' ∧
        ct'.map Prod.fst = ct.map Prod.fst ∧
        (∀ T, (lookupKey T cnodes).isSome →
          lookupKey T ct' = (lookupKey T ct).map (eraseKey e)) ∧
        (∀ T, lookupKey T cnodes = none → lookupKey T ct' = lookupKey T ct) := by
  intro cnodes
  induction cnodes with
  | nil =>
    intro ct _ _
    refine ⟨ct, rfl, rfl, ?_, fun _ _ => rfl⟩
    intro T hT
    simp at hT
  | cons p rest ih =>
    obtain ⟨T0, c0⟩ := p
    intro ct hnd hc
    rw [keysNodup, List.map_cons, List.nodup_cons] at hnd
    obtain ⟨en0, hen0, hsome0⟩ := hc (T0, c0) (List.mem_cons_self _ _)
    obtain ⟨ce, hce⟩ := Option.isSome_iff_exists.mp hsome0
    have hT0rest : lookupKey T0 rest = none := by
      rw [lookupKey_eq_none_iff]
      exact hnd.1
    have hc' : ∀ p ∈ rest,
        ∃ en, lookupKey p.1 (updateKey T0 (eraseKey e en0) ct) = some en ∧
          (lookupKey e en).isSome := by
      intro p hp
      obtain ⟨en, hen, hsome⟩ := hc p (List.mem_cons_of_mem _ hp)
      refine ⟨en, ?_, hsome⟩
      have hne : T0 ≠ p.1 := by
        intro h
        exact hnd.1 (h ▸ List.mem_map.mpr ⟨p, hp, rfl⟩)
      rw [lookupKey_updateKey_ne _ _ hne]
      exact hen
    obtain ⟨ct', hok, hkeys, herase, hkeep⟩ := ih hnd.2 hc'
    refine ⟨ct', ?_, ?_, ?_, ?_⟩
    · simp only [EntityManager.eraseFromTypeIndex, hen0, hce]
      exact hok
    · rw [hkeys, keys_updateKey]
    · intro T hT
      by_cases hTT : T0 = T
      · subst hTT
        rw [hkeep T0 hT0rest, lookupKey_updateKey_self _ hen0, hen0]
        rfl
      · rw [lookupKey_cons] at hT
        rw [if_neg hTT] at hT
        rw [herase T hT, lookupKey_updateKey_ne _ _ hTT]
    · intro T hT
      rw [lookupKey_cons] at hT
      by_cases hTT : T0 = T
      · rw [if_pos hTT] at hT
        cases hT
      · rw [if_neg hTT] at hT
        rw [hkeep T hT, lookupKey_updateKey_ne _ _ hTT]

/-- Full characterisation of `destroyEntity` on a consistent, well-formed
state: it never throws, returns `true` exactly when the entity is live,
removes the entity from the entity table and from every per-type entity-node
map, and changes nothing when the entity is unknown. -/
theorem destroyEntity_spec {em : EntityManager} (hInv : Inv em) (id : Nat) :
    ∃ em', em.destroyEntity id = .ok (em', (lookupKey id em.m_entities).isSome) ∧
      Inv em' ∧
      em'.m_entitiesMarkedForRemoval = em.m_entitiesMarkedForRemoval ∧
      em'.m_nextEntityId = em.m_nextEntityId ∧
      lookupKey id em'.m_entities = none ∧
      (∀ e, e ≠ id → lookupKey e em'.m_entities = lookupKey e em.m_entities) ∧
      (∀ T en', lookupKey T em'.m_componentTypes = some en' →
        lookupKey id en' = none) ∧
      ((lookupKey id em.m_entities).isSome = false → em' = em) := by
  obtain ⟨⟨w1, w2, w3, w4, w5, w6, w7⟩, c1, c2⟩ := hInv
  cases hid : lookupKey id em.m_entities with
  | none =>
    refine ⟨em, ?_, ⟨⟨w1, w2, w3, w4, w5, w6, w7⟩, c1, c2⟩, rfl, rfl, hid,
      fun _ _ => rfl, ?_, fun _ => rfl⟩
    · simp [EntityManager.destroyEntity, hid]
    · intro T en' hen'
      cases hl : lookupKey id en' with
      | none => rfl
      | some c0 =>
        obtain ⟨cn0, hcn0, _⟩ := c2 T en' id c0 hen' hl
        rw [hid] at hcn0
        cases hcn0
  | some cn =>
    have hcnnd : keysNodup cn := w3 _ (lookupKey_mem hid)
    have hc : ∀ p ∈ cn, ∃ en, lookupKey p.1 em.m_componentTypes = some en ∧
        (lookupKey id en).isSome := by
      intro p hp
      obtain ⟨en, hen, hee⟩ := c1 id cn p.1 p.2 hid (lookupKey_of_mem_nodup hcnnd hp)
      exact ⟨en, hen, by rw [hee]; rfl⟩
    obtain ⟨ct', hok, hkeys, herase, hkeep⟩ := eraseFromTypeIndex_spec hcnnd hc
    have hctnd : keysNodup ct' := by
      rw [keysNodup, hkeys]
      exact w2
    have hctfacts : ∀ T en', lookupKey T ct' = some en' →
        (∃ en0, lookupKey T em.m_componentTypes = some en0 ∧
          (en' = eraseKey id en0 ∨ en' = en0)) := by
      intro T en' hen'
      cases hT : lookupKey T cn with
      | some c0 =>
        have h1 := herase T (by rw [hT]; rfl)
        rw [hen'] at h1
        cases hen0 : lookupKey T em.m_componentTypes with
        | none => rw [hen0] at h1; cases h1
        | some en0 =>
          rw [hen0] at h1
          simp only [Option.map_some'] at h1
          injection h1 with h2
          exact ⟨en0, rfl, Or.inl h2⟩
      | none =>
        have h1 := hkeep T hT
        rw [hen'] at h1
        exact ⟨en', h1.symm, Or.inr rfl⟩
    refine ⟨{ em with
        m_entities := eraseKey id em.m_entities
        m_componentTypes := ct' }, ?_, ?_, rfl, rfl, ?_, ?_, ?_, ?_⟩
    · simp only [EntityManager.destroyEntity, hid, hok]
      rfl
    · rw [Inv_mk_iff]
      refine ⟨⟨keysNodup_eraseKey w1, hctnd, ?_, ?_, ?_, w6, w7⟩, ?_, ?_⟩
      · intro p hp
        exact w3 p (mem_eraseKey hp)
      · intro q hq
        obtain ⟨en0, hen0, hca⟩ :=
          hctfacts q.1 q.2 (lookupKey_of_mem_nodup hctnd hq)
        rcases hca with h1 | h1
        · rw [h1]
          exact keysNodup_eraseKey (w4 _ (lookupKey_mem hen0))
        · rw [h1]
          exact w4 _ (lookupKey_mem hen0)
      · intro p hp
        exact w5 p (mem_eraseKey hp)
      · -- entity table → index
        intro e cn0 T0 c0 hle hlt
        have hei : e ≠ id := by
          intro h
          subst h
          rw [lookupKey_eraseKey_self w1] at hle
          cases hle
        rw [lookupKey_eraseKey_ne _ (fun h => hei h.symm)] at hle
        obtain ⟨en0, hen0, hee0⟩ := c1 e cn0 T0 c0 hle hlt
        cases hT : lookupKey T0 cn with
        | some cc =>
          refine ⟨eraseKey id en0, ?_, ?_⟩
          · rw [herase T0 (by rw [hT]; rfl), hen0]
            rfl
          · rw [lookupKey_eraseKey_ne _ (fun h => hei h.symm)]
            exact hee0
        | none =>
          refine ⟨en0, ?_, hee0⟩
          rw [hkeep T0 hT]
          exact hen0
      · -- index → entity table
        intro T0 en0' e c0 hlt hle
        obtain ⟨en0, hen0, hca⟩ := hctfacts T0 en0' hlt
        rcases hca with h1 | h1
        · subst h1
          have hennd : keysNodup en0 := w4 _ (lookupKey_mem hen0)
          have hei : e ≠ id := by
            intro h
            subst h
            rw [lookupKey_eraseKey_self hennd] at hle
            cases hle
          rw [lookupKey_eraseKey_ne _ (fun h => hei h.symm)] at hle
          obtain ⟨cn0, hcn0, hct0⟩ := c2 T0 en0 e c0 hen0 hle
          refine ⟨cn0, ?_, hct0⟩
          rw [lookupKey_eraseKey_ne _ (fun h => hei h.symm)]
          exact hcn0
        · rw [h1] at hle hlt
          obtain ⟨cn0, hcn0, hct0⟩ := c2 T0 en0 e c0 hen0 hle
          have hei : e ≠ id := by
            intro h
            rw [h] at hcn0 hle
            rw [hid] at hcn0
            cases hcn0
            cases hT : lookupKey T0 cn with
            | none =>
              rw [hT] at hct0
              cases hct0
            | some cc =>
              have h2 := herase T0 (by rw [hT]; rfl)
              rw [hlt, hen0] at h2
              simp only [Option.map_some'] at h2
              injection h2 with h3
              have h4 : lookupKey id en0 = none := by
                rw [h3]
                exact lookupKey_eraseKey_self (w4 _ (lookupKey_mem hen0))
              rw [h4] at hle
              cases hle
          rw [lookupKey_eraseKey_ne _ (fun h => hei h.symm)]
          exact ⟨cn0, hcn0, hct0⟩
    · exact lookupKey_eraseKey_self w1
    · intro e he
      exact lookupKey_eraseKey_ne _ (fun h => he h.symm)
    · intro T en' hen'
      obtain ⟨en0, hen0, hca⟩ := hctfacts T en' hen'
      rcases hca with h1 | h1
      · rw [h1]
        exact lookupKey_eraseKey_self (w4 _ (lookupKey_mem hen0))
      · rw [h1] at hen' ⊢
        cases hl : lookupKey id en0 with
        | none => rfl
        | some c0 =>
          obtain ⟨cn0, hcn0, hct0⟩ := c2 T en0 id c0 hen0 hl
          rw [hid] at hcn0
          cases hcn0
          cases hT : lookupKey T cn with
          | none =>
            rw [hT] at hct0
            cases hct0
          | some cc =>
            have h2 := herase T (by rw [hT]; rfl)
            rw [hen', hen0] at h2
            simp only [Option.map_some'] at h2
            injection h2 with h3
            have h4 : lookupKey id en0 = none := by
              rw [h3]
              exact lookupKey_eraseKey_self (w4 _ (lookupKey_mem hen0))
            rw [h4] at hl
            cases hl
    · intro h
      simp at h

/-- The `purge` loop preserves the invariant and never throws. -/
theorem purgeLoop_inv :
    ∀ (l : List Nat) {em : EntityManager}, Inv em →
      ∃ em', EntityManager.purgeLoop em l = .ok em' ∧ Inv em' := by
  intro l
  induction l with
  | nil => intro em h; exact ⟨em, rfl, h⟩
  | cons id rest ih =>
    intro em h
    obtain ⟨em1, heq, hinv1, _⟩ := destroyEntity_spec h id
    obtain ⟨em', heq', hinv'⟩ := ih hinv1
    refine ⟨em', ?_, hinv'⟩
    unfold EntityManager.purgeLoop
    rw [heq]
    exact heq'

theorem purge_inv {em : EntityManager} (h : Inv em) :
    ∃ em', em.purge = .ok em' ∧ Inv em' :=
  purgeLoop_inv em.m_entitiesMarkedForRemoval h

/-- Every reachable state satisfies the combined invariant: the two tables
are consistent and well-formed. -/
theorem Reachable_inv {em : EntityManager} (h : Reachable em) : Inv em := by
  induction h with
  | init => exact Inv_init
  | createEntity _ ih => exact Inv_createEntity ih
  | @destroyEntity em0 em' id b _ heq ih =>
    obtain ⟨em'', heq2, hinv2, _⟩ := destroyEntity_spec ih id
    rw [heq] at heq2
    cases heq2
    exact hinv2
  | destroyAllEntities _ ih => exact Inv_destroyAllEntities ih
  | attachComponent _ ih => exact Inv_attachComponent ih _ _
  | @detachComponent em0 em' T id b _ heq ih =>
    obtain ⟨em'', heq2, hinv2, _⟩ := detachComponent_spec ih T id
    rw [heq] at heq2
    cases heq2
    exact hinv2
  | getEntityNodes _ ih => exact Inv_getEntityNodes ih _
  | markForRemoval _ ih => exact Inv_markForRemoval ih _
  | @purge em0 em' _ heq ih =>
    obtain ⟨em'', heq2, hinv2⟩ := purge_inv ih
    rw [heq] at heq2
    cases heq2
    exact hinv2

/-! ## Explicit states along a pure creation sequence -/

/-- The entity table after `k` creations from a fresh manager: ids
`maxEntityId`, `maxEntityId - 1`, ..., `maxEntityId - (k - 1)`, most recent
first. -/
def entsOf : Nat → List (Nat × ComponentNodes)
  | 0 => []
  | k + 1 => (maxEntityId - k, []) :: entsOf k

/-- The manager state after `k` creations from a fresh manager. -/
def stateK (k : Nat) : EntityManager :=
  { m_entities := entsOf k
    m_entitiesMarkedForRemoval := []
    m_componentTypes := []
    m_nextEntityId := if k < maxEntityId then maxEntityId - k else maxEntityId }

theorem length_entsOf (k : Nat) : (entsOf k).length = k := by
  induction k with
  | zero => rfl
  | succ k ih =>
    show ((maxEntityId - k, ([] : ComponentNodes)) :: entsOf k).length = k + 1
    rw [List.length_cons, ih]

theorem lookup_entsOf_none {k j : Nat} (h : j + k ≤ maxEntityId) :
    lookupKey j (entsOf k) = none := by
  induction k with
  | zero => rfl
  | succ k ih =>
    show lookupKey j ((maxEntityId - k, ([] : ComponentNodes)) :: entsOf k) = none
    rw [lookupKey_cons, if_neg (by omega), ih (by omega)]

theorem stateK_zero : stateK 0 = EntityManager.init := by
  unfold stateK EntityManager.init entsOf
  rw [if_pos (by rw [maxEntityId_eq]; omega), Nat.sub_zero]

theorem createEntity_stateK {k : Nat} (hk : k < maxEntityId) :
    (stateK k).createEntity = (stateK (k + 1), maxEntityId - k) := by
  have hfree : lookupKey (maxEntityId - k) (entsOf k) = none :=
    lookup_entsOf_none (by omega)
  have hklt : ¬((entsOf k).length = maxEntityId) := by
    rw [length_entsOf]
    omega
  have hscan : EntityManager.scanForId (entsOf k) (2 ^ 32) (maxEntityId - k) =
      some (maxEntityId - k) :=
    scanForId_free hfree (by norm_num)
  simp only [EntityManager.createEntity, stateK, if_pos hk, if_neg hklt, hscan, hfree,
    Option.isSome_none, Bool.false_eq_true, if_false]
  rw [insertKV_of_none _ hfree]
  have hents : (maxEntityId - k, ([] : ComponentNodes)) :: entsOf k = entsOf (k + 1) :=
    rfl
  have hcur : (if maxEntityId - k = 1 then maxEntityId
        else EntityManager.u32dec (maxEntityId - k)) =
      (if k + 1 < maxEntityId then maxEntityId - (k + 1) else maxEntityId) := by
    by_cases hk1 : k + 1 < maxEntityId
    · rw [if_neg (by omega : ¬(maxEntityId - k = 1)), if_pos hk1,
        u32dec_eq (by omega) (by omega)]
      omega
    · rw [if_pos (by omega : maxEntityId - k = 1), if_neg hk1]
  rw [hents, hcur]

theorem createN_stateK :
    ∀ (n k : Nat), k + n ≤ maxEntityId →
      createN (stateK k) n =
        (stateK (k + n), (List.range n).map (fun i => maxEntityId - (k + i))) := by
  intro n
  induction n with
  | zero =>
    intro k h
    simp [createN]
  | succ n ih =>
    intro k h
    have hk : k < maxEntityId := by omega
    show (let p := (stateK k).createEntity
          let q := createN p.1 n
          (q.1, p.2 :: q.2)) = _
    rw [createEntity_stateK hk]
    show ((createN (stateK (k + 1)) n).1,
        (maxEntityId - k) :: (createN (stateK (k + 1)) n).2) = _
    rw [ih (k + 1) (by omega)]
    simp only [Prod.mk.injEq]
    constructor
    · rw [show k + 1 + n = k + (n + 1) by omega]
    · rw [List.range_succ_eq_map, List.map_cons, List.map_map]
      rw [Nat.add_zero]
      congr 1
      apply List.map_congr_left
      intro i _
      show maxEntityId - (k + 1 + i) = maxEntityId - (k + (i + 1))
      omega

/-! ## Cardinality facts about the live-id set -/

theorem length_le_max {em : EntityManager} (h : WF em) :
    em.m_entities.length ≤ maxEntityId := by
  obtain ⟨w1, _, _, _, w5, _, _⟩ := h
  have hnd : (em.m_entities.map Prod.fst).Nodup := w1
  have hsub : (em.m_entities.map Prod.fst).toFinset ⊆ Finset.Icc 1 maxEntityId := by
    intro x hx
    rw [List.mem_toFinset, List.mem_map] at hx
    obtain ⟨p, hp, hpx⟩ := hx
    rw [Finset.mem_Icc]
    rw [← hpx]
    exact w5 p hp
  have hcard := Finset.card_le_card hsub
  rw [List.toFinset_card_of_nodup hnd, Nat.card_Icc] at hcard
  rw [List.length_map] at hcard
  omega

theorem all_live_length {em : EntityManager} (h : WF em)
    (hall : ∀ j, 1 ≤ j → j ≤ maxEntityId → (lookupKey j em.m_entities).isSome) :
    em.m_entities.length = maxEntityId := by
  have hle := length_le_max h
  have hnd : (em.m_entities.map Prod.fst).Nodup := h.1
  have hsub : Finset.Icc 1 maxEntityId ⊆ (em.m_entities.map Prod.fst).toFinset := by
    intro j hj
    rw [Finset.mem_Icc] at hj
    rw [List.mem_toFinset]
    rw [← lookupKey_isSome_iff]
    exact hall j hj.1 hj.2
  have hcard := Finset.card_le_card hsub
  rw [List.toFinset_card_of_nodup hnd, Nat.card_Icc, List.length_map] at hcard
  omega

theorem exists_free_length_ne {em : EntityManager} (h : WF em)
    (hfree : ∃ j, 1 ≤ j ∧ j ≤ maxEntityId ∧ lookupKey j em.m_entities = none) :
    ¬(em.m_entities.length = maxEntityId) := by
  intro hlen
  obtain ⟨j, hj1, hj2, hjf⟩ := hfree
  obtain ⟨w1, _, _, _, w5, _, _⟩ := h
  have hnd : (em.m_entities.map Prod.fst).Nodup := w1
  have hsub : (em.m_entities.map Prod.fst).toFinset ⊆ Finset.Icc 1 maxEntityId := by
    intro x hx
    rw [List.mem_toFinset, List.mem_map] at hx
    obtain ⟨p, hp, hpx⟩ := hx
    rw [Finset.mem_Icc, ← hpx]
    exact w5 p hp
  have hcardle : (Finset.Icc 1 maxEntityId).card ≤
      (em.m_entities.map Prod.fst).toFinset.card := by
    rw [List.toFinset_card_of_nodup hnd, List.length_map, hlen, Nat.card_Icc]
    omega
  have heq := Finset.eq_of_subset_of_card_le hsub hcardle
  have hjmem : j ∈ (em.m_entities.map Prod.fst).toFinset := by
    rw [heq, Finset.mem_Icc]
    exact ⟨hj1, hj2⟩
  rw [List.mem_toFinset, ← lookupKey_isSome_iff, hjf] at hjmem
  cases hjmem

/-- On any state, a non-invalid id returned by `createEntity` has just been
recorded live with an empty component set. -/
theorem createEntity_registers (em : EntityManager) :
    em.createEntity.2 ≠ InvalidEntity →
      lookupKey em.createEntity.2 em.createEntity.1.m_entities = some [] := by
  unfold EntityManager.createEntity
  split
  · intro h
    cases h rfl
  · cases hscan : EntityManager.scanForId em.m_entities (2 ^ 32) em.m_nextEntityId with
    | none =>
      intro h
      cases h rfl
    | some id =>
      have hfree : lookupKey id em.m_entities = none := scanForId_lookup_none hscan
      simp only [hfree, Option.isSome_none, Bool.false_eq_true, if_false]
      intro _
      exact lookupKey_insertKV_self _ hfree

/-- Lookup into the map returned by `getEntityNodes` is absent whenever the
per-type index (if the entry exists at all) does not contain the entity. -/
theorem getEntityNodes_lookup_none {em : EntityManager} {T id : Nat}
    (h : ∀ en', lookupKey T em.m_componentTypes = some en' →
      lookupKey id en' = none) :
    lookupKey id (em.getEntityNodes T).2 = none := by
  cases hct : lookupKey T em.m_componentTypes with
  | none =>
    simp only [EntityManager.getEntityNodes, hct]
    rfl
  | some en' =>
    simp only [EntityManager.getEntityNodes, hct]
    exact h en' hct

/-! ## The claims -/

/-- C1: the specification states that `purge()` unconditionally clears the
pending-removal list, but the body of `EntityManager::purge` never clears
`m_entitiesMarkedForRemoval`.  On the concrete trace
`createEntity(); markForRemoval(4294967295); purge()` the entity is
destroyed (the entity table ends empty) yet the pending list still holds
`[4294967295]`, so a second `purge()` would process it again. -/
theorem C1_purge_keeps_pending_list :
    (((EntityManager.init.createEntity).1.markForRemoval 4294967295).purge).map
        (fun em => (em.m_entitiesMarkedForRemoval, em.m_entities)) =
      Except.ok ([4294967295], []) := by
  rfl

/-- C2: dual-table consistency.  In every state reachable from a fresh
`EntityManager` through the public operations, for every entity holding a
component of some tag, the entity-table entry and the reverse-index entry
both exist and hold the same component instance, and neither exists without
the other. -/
theorem C2_dual_table_consistency (em : EntityManager) (h : Reachable em) :
    consistent em :=
  (Reachable_inv h).2

theorem C2_witness :
    consistent ((EntityManager.init.createEntity).1.attachComponent 4294967295
      (some ⟨7, 42⟩)).1 :=
  C2_dual_table_consistency _
    (Reachable.attachComponent (Reachable.createEntity Reachable.init))

/-- C3: any sequence of `createEntity()` calls on one fresh manager with no
intervening destruction, of length at most the size of the id space, returns
pairwise distinct ids, none equal to the invalid sentinel `0`. -/
theorem C3_created_ids_distinct_nonzero (n : Nat) (h : n ≤ maxEntityId) :
    (createN EntityManager.init n).2.Nodup ∧
    ∀ id ∈ (createN EntityManager.init n).2, id ≠ InvalidEntity := by
  have h0 := createN_stateK n 0 (by omega)
  rw [stateK_zero] at h0
  rw [h0]
  constructor
  · refine List.Nodup.map_on ?_ (List.nodup_range n)
    intro x hx y hy hxy
    rw [List.mem_range] at hx hy
    omega
  · intro id hid
    rw [List.mem_map] at hid
    obtain ⟨i, hi, hval⟩ := hid
    rw [List.mem_range] at hi
    rw [← hval]
    have hI : InvalidEntity = 0 := rfl
    omega

theorem C3_witness :
    (createN EntityManager.init 3).2.Nodup ∧
    ∀ id ∈ (createN EntityManager.init 3).2, id ≠ InvalidEntity :=
  C3_created_ids_distinct_nonzero 3 (by rw [maxEntityId_eq]; omega)

/-- C4: in every reachable state, `destroyEntity id` returns `true` exactly
when `id` is currently live, and afterwards `id` is no longer live — so an
id created once yields `true` for the first destruction and `false` for
every later one (and `false` if it was never created); a successful
`createEntity` makes its id live again. -/
theorem C4_destroy_true_exactly_once (em : EntityManager) (h : Reachable em)
    (id : Nat) :
    (∃ em', em.destroyEntity id =
        Except.ok (em', (lookupKey id em.m_entities).isSome) ∧
      lookupKey id em'.m_entities = none) ∧
    (em.createEntity.2 ≠ InvalidEntity →
      lookupKey em.createEntity.2 em.createEntity.1.m_entities = some []) := by
  constructor
  · obtain ⟨em', heq, _, _, _, hnone, _, _, _⟩ :=
      destroyEntity_spec (Reachable_inv h) id
    exact ⟨em', heq, hnone⟩
  · exact createEntity_registers em

theorem C4_witness :
    (∃ em', (EntityManager.init.createEntity).1.destroyEntity 4294967295 =
        Except.ok (em', (lookupKey 4294967295
          (EntityManager.init.createEntity).1.m_entities).isSome) ∧
      lookupKey 4294967295 em'.m_entities = none) ∧
    ((EntityManager.init.createEntity).1.createEntity.2 ≠ InvalidEntity →
      lookupKey (EntityManager.init.createEntity).1.createEntity.2
        (EntityManager.init.createEntity).1.createEntity.1.m_entities = some []) :=
  C4_destroy_true_exactly_once _ (Reachable.createEntity Reachable.init) 4294967295

/-- C5: `attachComponent id c` returns `true` iff `id` is live, `c` is
non-null and the entity holds no component of `c`'s dynamic type; in every
failing case (unknown id, null component, duplicate type) it returns `false`
and leaves the state — both tables included, hence the originally attached
component — completely unchanged. -/
theorem C5_attach_success_iff (em : EntityManager) (id : Nat)
    (pc : Option Comp) :
    ((em.attachComponent id pc).2 = true ↔
      ∃ cn c, lookupKey id em.m_entities = some cn ∧ pc = some c ∧
        lookupKey c.tag cn = none) ∧
    ((em.attachComponent id pc).2 = false → (em.attachComponent id pc).1 = em) :=
  ⟨attach_true_iff em id pc, attach_false_frame⟩

theorem C5_witness :
    (((EntityManager.init.attachComponent 5 none).2 = true ↔
      ∃ cn c, lookupKey 5 EntityManager.init.m_entities = some cn ∧
        (none : Option Comp) = some c ∧ lookupKey c.tag cn = none) ∧
    ((EntityManager.init.attachComponent 5 none).2 = false →
      (EntityManager.init.attachComponent 5 none).1 = EntityManager.init)) :=
  C5_attach_success_iff EntityManager.init 5 none

/-- C6: attach/get round trip.  Immediately after a successful
`attachComponent id c` (in a reachable state), `getComponent` at `c`'s tag
returns `c`, and the map returned by `getEntityNodes` at `c`'s tag maps `id`
to `c`. -/
theorem C6_attach_get_round_trip {em em' : EntityManager} {id : Nat} {c : Comp}
    (hr : Reachable em) (h : em.attachComponent id (some c) = (em', true)) :
    em'.getComponent c.tag id = some c ∧
    lookupKey id (em'.getEntityNodes c.tag).2 = some c := by
  have h2 : (em.attachComponent id (some c)).2 = true := by rw [h]
  obtain ⟨cn, c', hcn, hc', hnone⟩ := (attach_true_iff em id (some c)).mp h2
  cases hc'
  obtain ⟨_, hid, _, ⟨en, hen, hiden⟩, _, _, _⟩ :=
    attach_true_spec (Reachable_inv hr) hcn hnone
  have h1 : (em.attachComponent id (some c)).1 = em' := by rw [h]
  subst h1
  constructor
  · simp only [EntityManager.getComponent, hid]
    exact lookupKey_insertKV_self _ hnone
  · simp only [EntityManager.getEntityNodes, hen]
    exact hiden

theorem C6_witness :
    ((EntityManager.init.createEntity).1.attachComponent 4294967295
        (some ⟨7, 42⟩)).1.getComponent 7 4294967295 = some ⟨7, 42⟩ ∧
    lookupKey 4294967295
      (((EntityManager.init.createEntity).1.attachComponent 4294967295
        (some ⟨7, 42⟩)).1.getEntityNodes 7).2 = some ⟨7, 42⟩ :=
  @C6_attach_get_round_trip (EntityManager.init.createEntity).1
    ((EntityManager.init.createEntity).1.attachComponent 4294967295
      (some ⟨7, 42⟩)).1
    4294967295 ⟨7, 42⟩ (Reachable.createEntity Reachable.init) (by rfl)

/-- C7: immediately after a successful `detachComponent` of tag `T` from
`id`, or a successful `destroyEntity id`, `getComponent T id` is absent and
the map returned by `getEntityNodes T` has no entry for `id` (states
reachable through the public operations). -/
theorem C7_absent_after_detach_destroy (em : EntityManager) (hr : Reachable em)
    (T id : Nat) :
    (∀ em', em.detachComponent T id = Except.ok (em', true) →
      em'.getComponent T id = none ∧
      lookupKey id (em'.getEntityNodes T).2 = none) ∧
    (∀ em'', em.destroyEntity id = Except.ok (em'', true) →
      em''.getComponent T id = none ∧
      lookupKey id (em''.getEntityNodes T).2 = none) := by
  have hInv := Reachable_inv hr
  constructor
  · intro em' heq
    obtain ⟨em0, heq0, _, _, _, hgc0, hTn0, _, _⟩ := detachComponent_spec hInv T id
    rw [heq] at heq0
    injection heq0 with h1
    injection h1 with ha hb
    subst ha
    exact ⟨hgc0, getEntityNodes_lookup_none hTn0⟩
  · intro em'' heq
    obtain ⟨em0, heq0, _, _, _, hidn0, _, hTn0, _⟩ := destroyEntity_spec hInv id
    rw [heq] at heq0
    injection heq0 with h1
    injection h1 with ha hb
    subst ha
    constructor
    · simp only [EntityManager.getComponent, hidn0]
    · exact getEntityNodes_lookup_none (hTn0 T)

theorem C7_witness :
    ((⟨[(4294967295, [])], [], [(7, [])], 4294967294⟩ :
        EntityManager).getComponent 7 4294967295 = none ∧
      lookupKey 4294967295 ((⟨[(4294967295, [])], [], [(7, [])], 4294967294⟩ :
        EntityManager).getEntityNodes 7).2 = none) ∧
    ((⟨[], [], [(7, [])], 4294967294⟩ :
        EntityManager).getComponent 7 4294967295 = none ∧
      lookupKey 4294967295 ((⟨[], [], [(7, [])], 4294967294⟩ :
        EntityManager).getEntityNodes 7).2 = none) :=
  ⟨(C7_absent_after_detach_destroy
      ((EntityManager.init.createEntity).1.attachComponent 4294967295
        (some ⟨7, 42⟩)).1
      (Reachable.attachComponent (Reachable.createEntity Reachable.init))
      7 4294967295).1 _ (by rfl),
    (C7_absent_after_detach_destroy
      ((EntityManager.init.createEntity).1.attachComponent 4294967295
        (some ⟨7, 42⟩)).1
      (Reachable.attachComponent (Reachable.createEntity Reachable.init))
      7 4294967295).2 _ (by rfl)⟩

/-- C9: atomicity of attach and detach (in reachable states): a `false`
result leaves the state — both tables — exactly as it was, and a `true`
result updates both the entity table and the component-type index; no
outcome updates one table but not the other. -/
theorem C9_attach_detach_atomic (em : EntityManager) (hr : Reachable em)
    (id : Nat) (pc : Option Comp) (T : Nat) :
    ((em.attachComponent id pc).2 = false → (em.attachComponent id pc).1 = em) ∧
    (∀ c, pc = some c → (em.attachComponent id pc).2 = true →
      (∃ cn, lookupKey id (em.attachComponent id pc).1.m_entities = some cn ∧
        lookupKey c.tag cn = some c) ∧
      (∃ en, lookupKey c.tag (em.attachComponent id pc).1.m_componentTypes =
        some en ∧ lookupKey id en = some c)) ∧
    (∀ em', em.detachComponent T id = Except.ok (em', false) → em' = em) ∧
    (∀ em', em.detachComponent T id = Except.ok (em', true) →
      (∃ cn, lookupKey id em'.m_entities = some cn ∧ lookupKey T cn = none) ∧
      (∃ en, lookupKey T em'.m_componentTypes = some en ∧
        lookupKey id en = none)) := by
  have hInv := Reachable_inv hr
  refine ⟨attach_false_frame, ?_, ?_, ?_⟩
  · intro c hpc htrue
    subst hpc
    obtain ⟨cn, c', hcn, hc', hnone⟩ := (attach_true_iff em id (some c)).mp htrue
    cases hc'
    obtain ⟨_, hid, _, hen, _, _, _⟩ := attach_true_spec hInv hcn hnone
    refine ⟨⟨insertKV c.tag c cn, hid, lookupKey_insertKV_self _ hnone⟩, hen⟩
  · intro em' heq
    obtain ⟨em0, heq0, _, _, _, _, _, hfalse, _⟩ := detachComponent_spec hInv T id
    rw [heq] at heq0
    injection heq0 with h1
    injection h1 with ha hb
    subst ha
    exact hfalse hb.symm
  · intro em' heq
    obtain ⟨em0, heq0, _, _, _, _, _, _, htrue⟩ := detachComponent_spec hInv T id
    rw [heq] at heq0
    injection heq0 with h1
    injection h1 with ha hb
    subst ha
    exact htrue hb.symm

theorem C9_witness :
    (((EntityManager.init.createEntity).1.attachComponent 4294967295
        (some ⟨7, 42⟩)).1.attachComponent 4294967295 (some ⟨7, 43⟩)).1 =
      ((EntityManager.init.createEntity).1.attachComponent 4294967295
        (some ⟨7, 42⟩)).1 ∧
    ((∃ cn, lookupKey 4294967295
        ((EntityManager.init.createEntity).1.attachComponent 4294967295
          (some ⟨7, 42⟩)).1.m_entities = some cn ∧
        lookupKey 7 cn = some ⟨7, 42⟩) ∧
      (∃ en, lookupKey 7
        ((EntityManager.init.createEntity).1.attachComponent 4294967295
          (some ⟨7, 42⟩)).1.m_componentTypes = some en ∧
        lookupKey 4294967295 en = some ⟨7, 42⟩)) ∧
    ((∃ cn, lookupKey 4294967295
        ((⟨[(4294967295, [])], [], [(7, [])], 4294967294⟩ :
          EntityManager)).m_entities = some cn ∧ lookupKey 7 cn = none) ∧
      (∃ en, lookupKey 7 ((⟨[(4294967295, [])], [], [(7, [])], 4294967294⟩ :
          EntityManager)).m_componentTypes = some en ∧
        lookupKey 4294967295 en = none)) :=
  ⟨(C9_attach_detach_atomic
      ((EntityManager.init.createEntity).1.attachComponent 4294967295
        (some ⟨7, 42⟩)).1
      (Reachable.attachComponent (Reachable.createEntity Reachable.init))
      4294967295 (some ⟨7, 43⟩) 7).1 (by rfl),
    (C9_attach_detach_atomic (EntityManager.init.createEntity).1
      (Reachable.createEntity Reachable.init)
      4294967295 (some ⟨7, 42⟩) 7).2.1 ⟨7, 42⟩ rfl (by rfl),
    (C9_attach_detach_atomic
      ((EntityManager.init.createEntity).1.attachComponent 4294967295
        (some ⟨7, 42⟩)).1
      (Reachable.attachComponent (Reachable.createEntity Reachable.init))
      4294967295 (some ⟨7, 42⟩) 7).2.2.2 _ (by rfl)⟩

/-- C10: `markForRemoval` never changes the entity table, the component-type
index or the cursor; its only effect is appending the id to the
pending-removal list, which happens exactly when the id is live, so every
`getComponent` / `getEntityNodes` / `destroyEntity` observation is unchanged
by it. -/
theorem C10_markForRemoval_frame (em : EntityManager) (id : Nat) :
    (em.markForRemoval id).m_entities = em.m_entities ∧
    (em.markForRemoval id).m_componentTypes = em.m_componentTypes ∧
    (em.markForRemoval id).m_nextEntityId = em.m_nextEntityId ∧
    (em.markForRemoval id).m_entitiesMarkedForRemoval =
      (if (lookupKey id em.m_entities).isSome
        then em.m_entitiesMarkedForRemoval ++ [id]
        else em.m_entitiesMarkedForRemoval) ∧
    (∀ T e, (em.markForRemoval id).getComponent T e = em.getComponent T e) ∧
    (∀ T, ((em.markForRemoval id).getEntityNodes T).2 =
      (em.getEntityNodes T).2) ∧
    (∀ e, ((em.markForRemoval id).destroyEntity e).map Prod.snd =
      (em.destroyEntity e).map Prod.snd) := by
  cases hl : lookupKey id em.m_entities with
  | none =>
    have hmm : em.markForRemoval id = em := by
      simp only [EntityManager.markForRemoval, hl]
    rw [hmm]
    simp
  | some cn =>
    have hmm : em.markForRemoval id =
        { em with m_entitiesMarkedForRemoval :=
            em.m_entitiesMarkedForRemoval ++ [id] } := by
      simp only [EntityManager.markForRemoval, hl]
    rw [hmm]
    refine ⟨rfl, rfl, rfl, by simp, ?_, ?_, ?_⟩
    · intro T e
      cases hle : lookupKey e em.m_entities with
      | none => simp only [EntityManager.getComponent, hle]
      | some cn0 => simp only [EntityManager.getComponent, hle]
    · intro T
      cases hct : lookupKey T em.m_componentTypes with
      | none => simp only [EntityManager.getEntityNodes, hct]
      | some en => simp only [EntityManager.getEntityNodes, hct]
    · intro e
      cases hle : lookupKey e em.m_entities with
      | none => simp only [EntityManager.destroyEntity, hle]; rfl
      | some cn0 =>
        cases hefti : EntityManager.eraseFromTypeIndex e em.m_componentTypes cn0 with
        | error s =>
          simp only [EntityManager.destroyEntity, hle, hefti]
          rfl
        | ok ct' =>
          simp only [EntityManager.destroyEntity, hle, hefti]
          rfl

/-- C8: identifier allocation.  The cursor starts at the maximum 32-bit
value; when every id in `[1, maxEntityId]` is live, `createEntity` returns
the invalid sentinel `0` and changes nothing; otherwise it returns the first
id not currently live along the downward scan from the cursor (`visit` walks
that scan: it wraps from `1` back to the maximum and never visits `0`),
records it live with an empty component set, and sets the cursor to the
value just past the returned id. -/
theorem C8_createEntity_allocation (em : EntityManager) (h : WF em) :
    EntityManager.init.m_nextEntityId = maxEntityId ∧
    ((∀ j, 1 ≤ j → j ≤ maxEntityId → (lookupKey j em.m_entities).isSome) →
      em.createEntity = (em, InvalidEntity)) ∧
    ((∃ j, 1 ≤ j ∧ j ≤ maxEntityId ∧ lookupKey j em.m_entities = none) →
      ∃ d, (∀ k, k < d →
          (lookupKey (visit em.m_nextEntityId k) em.m_entities).isSome) ∧
        lookupKey (visit em.m_nextEntityId d) em.m_entities = none ∧
        1 ≤ visit em.m_nextEntityId d ∧
        visit em.m_nextEntityId d ≤ maxEntityId ∧
        em.createEntity =
          ({ em with
              m_entities := insertKV (visit em.m_nextEntityId d) [] em.m_entities
              m_nextEntityId := scanStep (visit em.m_nextEntityId d) },
            visit em.m_nextEntityId d)) := by
  have hWF := h
  obtain ⟨w1, w2, w3, w4, w5, w6, w7⟩ := h
  refine ⟨rfl, ?_, ?_⟩
  · intro hall
    have hlen : em.m_entities.length = maxEntityId := all_live_length hWF hall
    simp only [EntityManager.createEntity, if_pos hlen]
  · intro hfree
    have hne : ¬(em.m_entities.length = maxEntityId) :=
      exists_free_length_ne hWF hfree
    obtain ⟨j, hj1, hj2, hjf⟩ := hfree
    obtain ⟨k0, hk0, hvk0⟩ := visit_covers w6 w7 hj1 hj2
    have hP : ∃ k, lookupKey (visit em.m_nextEntityId k) em.m_entities = none :=
      ⟨k0, by rw [hvk0]; exact hjf⟩
    have hd : lookupKey (visit em.m_nextEntityId (Nat.find hP)) em.m_entities =
        none := Nat.find_spec hP
    have hmin : ∀ k, k < Nat.find hP →
        (lookupKey (visit em.m_nextEntityId k) em.m_entities).isSome := by
      intro k hk
      have hnot := Nat.find_min hP hk
      cases hcase : lookupKey (visit em.m_nextEntityId k) em.m_entities with
      | none => exact absurd hcase hnot
      | some _ => rfl
    have hdlt : Nat.find hP < maxEntityId :=
      lt_of_le_of_lt (Nat.find_min' hP (by rw [hvk0]; exact hjf)) hk0
    obtain ⟨hr1, hr2⟩ := visit_range w6 w7 (Nat.find hP)
    have hfuel : Nat.find hP < 2 ^ 32 := by
      have h32 : (2 : Nat) ^ 32 = 4294967296 := by norm_num
      rw [maxEntityId_eq] at hdlt
      omega
    have hscan :=
      scanForId_visit (Nat.find hP) em.m_nextEntityId w6 w7 hmin hd (2 ^ 32) hfuel
    refine ⟨Nat.find hP, hmin, hd, hr1, hr2, ?_⟩
    simp only [EntityManager.createEntity, if_neg hne, hscan, hd,
      Option.isSome_none, Bool.false_eq_true, if_false]
    rw [scanStep_eq_code hr1 hr2]

theorem C8_witness :
    EntityManager.init.m_nextEntityId = maxEntityId ∧
    ((∀ j, 1 ≤ j → j ≤ maxEntityId →
        (lookupKey j EntityManager.init.m_entities).isSome) →
      EntityManager.init.createEntity = (EntityManager.init, InvalidEntity)) ∧
    ((∃ j, 1 ≤ j ∧ j ≤ maxEntityId ∧
        lookupKey j EntityManager.init.m_entities = none) →
      ∃ d, (∀ k, k < d →
          (lookupKey (visit EntityManager.init.m_nextEntityId k)
            EntityManager.init.m_entities).isSome) ∧
        lookupKey (visit EntityManager.init.m_nextEntityId d)
          EntityManager.init.m_entities = none ∧
        1 ≤ visit EntityManager.init.m_nextEntityId d ∧
        visit EntityManager.init.m_nextEntityId d ≤ maxEntityId ∧
        EntityManager.init.createEntity =
          ({ EntityManager.init with
              m_entities := insertKV (visit EntityManager.init.m_nextEntityId d)
                [] EntityManager.init.m_entities
              m_nextEntityId :=
                scanStep (visit EntityManager.init.m_nextEntityId d) },
            visit EntityManager.init.m_nextEntityId d)) :=
  C8_createEntity_allocation EntityManager.init Inv_init.1

end Gameutils
